import Mathlib

/-!
Verification development for the TikTokHacka batch-processing subsystem.

The definitions below are a shallow embedding of
`backend/services/batch_processor.py`,
`backend/repositories/analytics_repository.py` and the parts of
`backend/services/cache_service.py`, `backend/services/analytics_service.py`
and `backend/services/notification_service.py` that the batch processor calls.

Modelling conventions:
* MongoDB collections are Lean lists of structures; aggregation pipelines are
  list filters / groupings translated stage by stage.
* Timestamps are integers (seconds); `timedelta(days=d)` is `86400 * d`,
  `timedelta(hours=h)` is `3600 * h`.
* Redis cache is an association list keyed by an inductive `CacheKey`
  (the Python string key formats `digest_sent:<user>`,
  `daily_analytics:<date>`, `trending:skills`, `leaderboard:followers`
  are injective, so an inductive key type is faithful).
* Scores that Mongo computes with the float literal `1.5` are rationals (ℚ).
* A Python `try/except` around a block is modelled with `Except`: the body may
  be interrupted by an injected fault (a `Bool` argument standing for a raised
  exception) and the handler recovers to the pre-block state.
-/

namespace TikTokHacka

/-- Event types appearing in the `analytics_events` collection. -/
inductive EventType where
  | skillView
  | skillLike
  | skillDownload
  | skillComment
  | skillShare
  | userFollow
  | profileView
  | customTaskAdd
  | taskVote
  | otherEvent
deriving DecidableEq, Repr

/-- A row of the `analytics_events` collection (the fields the batch
processor's pipelines read). `skillId = none` models a missing `skill_id`
field. -/
structure Event where
  eventType : EventType
  skillId : Option Nat
  userId : Nat
  timestamp : Int
deriving DecidableEq, Repr

/-- Notification types appearing in the `notifications` collection. -/
inductive NotifType where
  | likeReceived
  | commentReceived
  | followerAdded
  | dailyDigest
  | otherNotif
deriving DecidableEq, Repr

/-- A row of the `notifications` collection. -/
structure Notif where
  userId : Nat
  ntype : NotifType
  read : Bool
  createdAt : Int
deriving DecidableEq, Repr

/-- A document of the `shared_skills` collection (the fields the batch
processor touches). -/
structure Skill where
  skillId : Nat
  viewsCount : Nat
  likesCount : Nat
  downloadsCount : Nat
  commentsCount : Nat
  engagementScore : Nat
  trendingScore : ℚ
deriving DecidableEq, Repr

/-- A document of the `users` collection (the fields
`_update_user_engagement_metrics` touches). -/
structure UserDoc where
  userId : Nat
  dailyActivityScore : Nat
  totalEngagementScore : Nat
  lastActivity : Int
deriving DecidableEq, Repr

/-! ## Engagement scoring (`_update_skill_engagement_scores`) -/

/-- The event types matched by the engagement pipeline's `$match` stage. -/
def engagementEventTypes : List EventType :=
  [.skillView, .skillLike, .skillDownload, .skillComment]

/-- `$match` stage of the engagement pipeline: events after the cutoff, with a
`skill_id`, of one of the four engagement types. -/
def engagementMatch (cutoff : Int) (evs : List Event) : List Event :=
  evs.filter fun e =>
    cutoff ≤ e.timestamp ∧ e.skillId.isSome ∧ e.eventType ∈ engagementEventTypes

/-- Result of the `$group`/`$addFields` stages of the engagement pipeline,
for one skill. -/
structure EngGroup where
  skillId : Nat
  views : Nat
  likes : Nat
  downloads : Nat
  comments : Nat
  uniqueUsers : Nat
  engagementScore : Nat
deriving DecidableEq, Repr

/-- The `$group` stage for a single skill id: conditional count per event
type, `$addToSet` of user ids, and the `$addFields` weighted score
`views + likes*3 + downloads*5 + comments*4 + |unique_users|*2`. -/
def engGroupFor (matched : List Event) (sid : Nat) : EngGroup :=
  let es := matched.filter fun e => e.skillId = some sid
  let v := (es.filter fun e => e.eventType = .skillView).length
  let l := (es.filter fun e => e.eventType = .skillLike).length
  let d := (es.filter fun e => e.eventType = .skillDownload).length
  let c := (es.filter fun e => e.eventType = .skillComment).length
  let u := ((es.map fun e => e.userId).dedup).length
  { skillId := sid, views := v, likes := l, downloads := d, comments := c,
    uniqueUsers := u,
    engagementScore := v + l * 3 + d * 5 + c * 4 + u * 2 }

/-- The full engagement aggregation: one group per distinct skill id among the
matched events. -/
def engagementGroups (cutoff : Int) (evs : List Event) : List EngGroup :=
  let matched := engagementMatch cutoff evs
  ((matched.filterMap fun e => e.skillId).dedup).map (engGroupFor matched)

/-- The `update_one` issued for one skill: `$inc` on the four counters
(non-destructive increment) and `$set` of the derived `engagement_score`. -/
def applyEngagementUpdate (sk : Skill) (g : EngGroup) : Skill :=
  { sk with
    viewsCount := sk.viewsCount + g.views
    likesCount := sk.likesCount + g.likes
    downloadsCount := sk.downloadsCount + g.downloads
    commentsCount := sk.commentsCount + g.comments
    engagementScore := g.engagementScore }

/-- Applying all engagement updates to the `shared_skills` collection. -/
def applyEngagementUpdates (gs : List EngGroup) (skills : List Skill) :
    List Skill :=
  skills.map fun sk =>
    match gs.find? fun g => g.skillId = sk.skillId with
    | some g => applyEngagementUpdate sk g
    | none => sk

/-! ## Trending pipeline (`AnalyticsRepository.get_trending_content`) -/

/-- `trending_events["skill"]` in `get_trending_content`. -/
def trendingEventTypes : List EventType :=
  [.skillView, .skillLike, .skillDownload, .skillComment, .skillShare]

/-- One output row of the trending pipeline, after `$group`, `$addFields`
and `$project`.  The group key is `$skill_id` (`none` when the field is
missing, mirroring Mongo's `null` group). -/
structure TrendGroup where
  skillId : Option Nat
  totalInteractions : Nat
  uniqueUserCount : Nat
  latestActivity : Int
  trendingScore : ℚ
deriving DecidableEq, Repr

/-- The `$group`/`$addFields` stages for one `skill_id` key:
`total_interactions = $sum 1`, `unique_users = $addToSet user_id`,
`latest_activity = $max timestamp`, and
`trending_score = total_interactions + unique_user_count * 2`. -/
def trendGroupFor (matched : List Event) (k : Option Nat) : TrendGroup :=
  let es := matched.filter fun e => e.skillId = k
  let n := es.length
  let u := ((es.map fun e => e.userId).dedup).length
  { skillId := k, totalInteractions := n, uniqueUserCount := u,
    latestActivity := ((es.map fun e => e.timestamp).max?).getD 0,
    trendingScore := (n : ℚ) + (u : ℚ) * 2 }

/-- `{"$sort": {"trending_score": -1, "latest_activity": -1}}`: score
descending, ties broken by latest activity descending. -/
def trendRel (a b : TrendGroup) : Prop :=
  b.trendingScore < a.trendingScore ∨
    (a.trendingScore = b.trendingScore ∧ b.latestActivity ≤ a.latestActivity)

instance : DecidableRel trendRel := fun a b => by
  unfold trendRel; infer_instance

instance : IsTotal TrendGroup trendRel := by
  constructor
  intro a b
  rcases lt_trichotomy a.trendingScore b.trendingScore with h | h | h
  · exact Or.inr (Or.inl h)
  · rcases le_total b.latestActivity a.latestActivity with h' | h'
    · exact Or.inl (Or.inr ⟨h, h'⟩)
    · exact Or.inr (Or.inr ⟨h.symm, h'⟩)
  · exact Or.inl (Or.inl h)

instance : IsTrans TrendGroup trendRel := by
  constructor
  rintro a b c (hab | ⟨hab1, hab2⟩) (hbc | ⟨hbc1, hbc2⟩)
  · exact Or.inl (hbc.trans hab)
  · exact Or.inl (hbc1 ▸ hab)
  · exact Or.inl (hab1.symm ▸ hbc)
  · exact Or.inr ⟨hab1.trans hbc1, hbc2.trans hab2⟩

/-- `AnalyticsRepository.get_trending_content` for `content_type = "skill"`:
match events of the trending types after the cutoff, group by `skill_id`,
add the trending score, sort by score then latest activity (both
descending), and keep the first `limit` rows. -/
def getTrendingContent (now : Int) (days : Nat) (limit : Nat)
    (evs : List Event) : List TrendGroup :=
  let cutoff := now - 86400 * (days : Int)
  let matched := evs.filter fun e =>
    e.eventType ∈ trendingEventTypes ∧ cutoff ≤ e.timestamp
  let groups := ((matched.map fun e => e.skillId).dedup).map
    (trendGroupFor matched)
  (groups.insertionSort trendRel).take limit

/-- The trending-score formula the specification states for skills:
`views + 2*likes + 3*downloads + 1.5*comments`.  Written from the spec's
words, to be compared with the score the code computes. -/
def specTrendingScore (views likes downloads comments : Nat) : ℚ :=
  (views : ℚ) + 2 * likes + 3 * downloads + (3 / 2) * comments

/-! ## Cache (`CacheService` as used by the batch processor) -/

/-- The cache keys the batch processor reads or writes.  The Python string
formats (`digest_sent:<user>`, `daily_analytics:<iso date>`,
`trending:skills`, `leaderboard:followers`) are injective, so an inductive
key is a faithful embedding. -/
inductive CacheKey where
  | digestSent (userId : Nat)
  | dailyAnalytics (day : Int)
  | trendingSkills
  | leaderboardFollowers
deriving DecidableEq, Repr

/-- A per-event-type row of the daily analytics aggregation. -/
structure DailyAgg where
  eventType : EventType
  count : Nat
  uniqueUsers : Nat
deriving DecidableEq, Repr

/-- Values the batch processor stores in the cache.  `lbVal` abstracts the
follower-leaderboard list (computed from the `user_relationships`
collection, which the batch-processing claims never inspect). -/
inductive CacheValue where
  | boolVal (b : Bool)
  | aggVal (rows : List DailyAgg)
  | trendVal (items : List TrendGroup)
  | lbVal
deriving DecidableEq, Repr

/-- A cache entry: stored value and the TTL (seconds) it was set with. -/
structure CacheEntry where
  value : CacheValue
  ttl : Nat
deriving DecidableEq, Repr

/-- The Redis cache, as an association list. -/
def Cache := List (CacheKey × CacheEntry)

instance : DecidableEq Cache := by
  unfold Cache; infer_instance

/-- `CacheService.exists`. -/
def cacheExists (k : CacheKey) (c : Cache) : Bool :=
  c.any fun p => p.1 = k

/-- `CacheService.set` with an explicit TTL: overwrites any previous entry
under the same key. -/
def cacheSet (k : CacheKey) (v : CacheValue) (ttl : Nat) (c : Cache) :
    Cache :=
  (k, ⟨v, ttl⟩) :: c.filter fun p => ¬ p.1 = k

/-- `CacheService.get`-style lookup (used to state theorems about what a
run wrote). -/
def cacheGet (k : CacheKey) (c : Cache) : Option CacheEntry :=
  (c.find? fun p => p.1 = k).map fun p => p.2

/-! ## User engagement metrics (`_update_user_engagement_metrics`) -/

/-- One group of the user-activity pipeline: event count, distinct event
types, latest activity, and `activity_score = total_events * |event_types|`. -/
structure UserGroup where
  userId : Nat
  totalEvents : Nat
  numEventTypes : Nat
  lastActivity : Int
  activityScore : Nat
deriving DecidableEq, Repr

/-- The user-activity aggregation over events of the last 24 hours. -/
def userMetricGroups (cutoff : Int) (evs : List Event) : List UserGroup :=
  let matched := evs.filter fun e => cutoff ≤ e.timestamp
  ((matched.map fun e => e.userId).dedup).map fun u =>
    let es := matched.filter fun e => e.userId = u
    let t := es.length
    let k := ((es.map fun e => e.eventType).dedup).length
    { userId := u, totalEvents := t, numEventTypes := k,
      lastActivity := ((es.map fun e => e.timestamp).max?).getD 0,
      activityScore := t * k }

/-- The `update_one` per user: `$set` of the daily score and last activity,
`$inc` of the cumulative engagement score. -/
def applyUserMetricUpdates (gs : List UserGroup) (users : List UserDoc) :
    List UserDoc :=
  users.map fun ud =>
    match gs.find? fun g => g.userId = ud.userId with
    | some g =>
      { ud with dailyActivityScore := g.activityScore,
                lastActivity := g.lastActivity,
                totalEngagementScore := ud.totalEngagementScore + g.activityScore }
    | none => ud

/-! ## Scheduler state (`BatchProcessor`) -/

/-- A worker thread of the scheduler.  `remaining` is the time (seconds)
until its current `time.sleep` ends; at that point the loop re-checks
`self.running` and exits when it is false. -/
structure Worker where
  alive : Bool
  remaining : Nat
deriving DecidableEq, Repr

/-- The whole mutable state the batch processor touches: its own fields
(`running`, `batch_threads`, `app`), the database collections, the cache,
and the ambient clock / cache health used by the tasks. -/
structure BatchState where
  running : Bool
  workers : List (String × Worker)
  app : Bool
  cacheAvailable : Bool
  hitRate : Nat
  now : Int
  events : List Event
  notifications : List Notif
  skills : List Skill
  users : List UserDoc
  cache : Cache
deriving DecidableEq

/-- `{ success, message, processed_items }` as built by
`process_immediate_batch`. -/
structure OperationResult where
  success : Bool
  message : String
  processedItems : Nat
deriving DecidableEq, Repr

/-! ## The five task bodies

Each `...Body` is the `try`-block of the corresponding `_...` method; a
`fault = true` argument stands for an exception raised inside it, and the
`process...`/`perform...`/`aggregate...` wrapper is the method itself,
whose `except` clause swallows the exception and falls back to the
pre-call state. -/

/-- `try`-block of `_process_engagement_batch` when it runs to completion:
skill engagement scores, user metrics, leaderboard cache. -/
def engagementWork (s : BatchState) : BatchState :=
  let gs := engagementGroups (s.now - 3600) s.events
  let s1 := { s with skills := applyEngagementUpdates gs s.skills }
  let us := userMetricGroups (s1.now - 86400) s1.events
  let s2 := { s1 with users := applyUserMetricUpdates us s1.users }
  { s2 with cache := cacheSet .leaderboardFollowers .lbVal 1800 s2.cache }

def engagementBody (fault : Bool) (s : BatchState) :
    Except String BatchState :=
  if fault then .error "engagement aggregation raised"
  else if s.app = false then .ok s
  else .ok (engagementWork s)

/-- `_process_engagement_batch`. -/
def processEngagementBatch (fault : Bool) (s : BatchState) : BatchState :=
  match engagementBody fault s with
  | .ok s' => s'
  | .error _ => s

/-- `try`-block of `_update_trending_content`: fetch trending skills via
`AnalyticsService.get_trending_content` (which drops rows whose skill
document is missing), cache them with the 900 s trending TTL, and write
each `trending_score` back to `shared_skills`. -/
def trendingWork (s : BatchState) : BatchState :=
  let items := (getTrendingContent s.now 1 50 s.events).filter fun g =>
    s.skills.any fun sk => g.skillId = some sk.skillId
  let s1 := { s with cache := cacheSet .trendingSkills (.trendVal items) 900 s.cache }
  { s1 with skills := s1.skills.map fun sk =>
      match items.find? fun g => g.skillId = some sk.skillId with
      | some g => { sk with trendingScore := g.trendingScore }
      | none => sk }

def trendingBody (fault : Bool) (s : BatchState) :
    Except String BatchState :=
  if fault then .error "trending aggregation raised"
  else if s.app = false then .ok s
  else .ok (trendingWork s)

/-- `_update_trending_content`. -/
def updateTrendingContent (fault : Bool) (s : BatchState) : BatchState :=
  match trendingBody fault s with
  | .ok s' => s'
  | .error _ => s

/-! ## Notification digest (`_process_notification_digest`) -/

/-- The notification types the digest pipeline's `$match` stage keeps. -/
def digestNotifTypes : List NotifType :=
  [.likeReceived, .commentReceived, .followerAdded]

/-- `$match` stage: unread, created in the trailing 24 h, of a qualifying
type. -/
def qualifyingNotifs (now : Int) (notifs : List Notif) : List Notif :=
  notifs.filter fun n =>
    n.read = false ∧ now - 86400 ≤ n.createdAt ∧ n.ntype ∈ digestNotifTypes

/-- Unread qualifying notifications of one user. -/
def unreadCountFor (now : Int) (notifs : List Notif) (u : Nat) : Nat :=
  ((qualifyingNotifs now notifs).filter fun n => n.userId = u).length

/-- `$group` by user then `$match unread_count ≥ 5`: the digest candidates. -/
def digestCandidates (now : Int) (notifs : List Notif) : List Nat :=
  (((qualifyingNotifs now notifs).map fun n => n.userId).dedup).filter
    fun u => 5 ≤ unreadCountFor now notifs u

/-- The digest notification `NotificationService.create_notification`
inserts (the repository stamps `read = False` and `created_at = utcnow`). -/
def mkDigest (u : Nat) (now : Int) : Notif :=
  { userId := u, ntype := .dailyDigest, read := false, createdAt := now }

/-- Loop body for one candidate: skip when the dedup key exists, otherwise
create the digest and set `digest_sent:<user>` with a 86400 s TTL. -/
def digestStep (now : Int) (st : BatchState) (u : Nat) : BatchState :=
  if cacheExists (.digestSent u) st.cache then st
  else
    { st with
      notifications := st.notifications ++ [mkDigest u now],
      cache := cacheSet (.digestSent u) (.boolVal true) 86400 st.cache }

/-- `try`-block of `_process_notification_digest` when it runs: the
candidate list is materialised up front, then each candidate is processed. -/
def digestWork (s : BatchState) : BatchState :=
  (digestCandidates s.now s.notifications).foldl (digestStep s.now) s

def digestBody (fault : Bool) (s : BatchState) :
    Except String BatchState :=
  if fault then .error "digest aggregation raised"
  else if s.app = false then .ok s
  else .ok (digestWork s)

/-- `_process_notification_digest`. -/
def processNotificationDigest (fault : Bool) (s : BatchState) : BatchState :=
  match digestBody fault s with
  | .ok s' => s'
  | .error _ => s

/-! ## Cache maintenance and analytics rollup -/

def cacheMaintenanceBody (fault : Bool) (s : BatchState) :
    Except String BatchState :=
  if fault then .error "cache maintenance raised"
  else if s.cacheAvailable = false then .ok s
  else if s.hitRate < 60 then
    -- warm_cache("trending") → _warm_trending_cache → cache_trending_skills([])
    .ok { s with cache := cacheSet .trendingSkills (.trendVal []) 900 s.cache }
  else .ok s

/-- `_perform_cache_maintenance`. -/
def performCacheMaintenance (fault : Bool) (s : BatchState) : BatchState :=
  match cacheMaintenanceBody fault s with
  | .ok s' => s'
  | .error _ => s

/-- `datetime.utcnow().date()` as the floor-day of the clock. -/
def dayOf (now : Int) : Int := now.fdiv 86400

/-- The daily analytics `$group` by event type with `$addToSet user_id`,
over events with `start_of_day ≤ timestamp ≤ end_of_day`. -/
def dailyAggregation (startD endD : Int) (evs : List Event) :
    List DailyAgg :=
  let matched := evs.filter fun e => startD ≤ e.timestamp ∧ e.timestamp ≤ endD
  ((matched.map fun e => e.eventType).dedup).map fun t =>
    let es := matched.filter fun e => e.eventType = t
    { eventType := t, count := es.length,
      uniqueUsers := ((es.map fun e => e.userId).dedup).length }

def analyticsBody (fault : Bool) (s : BatchState) :
    Except String BatchState :=
  if fault then .error "analytics aggregation raised"
  else if s.app = false then .ok s
  else
    let day := dayOf s.now
    if cacheExists (.dailyAnalytics day) s.cache then .ok s
    else
      let rows := dailyAggregation (day * 86400) (day * 86400 + 86399) s.events
      .ok { s with
            cache := cacheSet (.dailyAnalytics day) (.aggVal rows) 86400 s.cache }

/-- `_aggregate_analytics_data` (LONG_TTL = 86400). -/
def aggregateAnalyticsData (fault : Bool) (s : BatchState) : BatchState :=
  match analyticsBody fault s with
  | .ok s' => s'
  | .error _ => s

/-! ## Start / stop / status -/

/-- The five worker threads `start_batch_processing` spawns, with their
loop sleep intervals. -/
def spawnWorkers : List (String × Worker) :=
  [("engagement_metrics", ⟨true, 300⟩),
   ("trending_content", ⟨true, 900⟩),
   ("notification_digest", ⟨true, 3600⟩),
   ("cache_maintenance", ⟨true, 1800⟩),
   ("analytics_aggregation", ⟨true, 600⟩)]

/-- `start_batch_processing`: rejected with a logged warning when already
running (nothing is touched, not even `self.app`); otherwise stores the app
handle, sets the running flag and spawns one worker per task. -/
def startBatchProcessing (appHandle : Bool) (s : BatchState) : BatchState :=
  if s.running then s
  else { s with app := appHandle, running := true, workers := spawnWorkers }

/-- Sequential `thread.join(timeout=10)` over the registry, entered right
after `running` was set false at elapsed time 0.  A sleeping worker exits
at its wake-up time (when the loop re-checks the flag), so a join started
at elapsed time `t` sees it die iff it wakes within `t + 10`; otherwise the
join times out after 10 and the worker is abandoned still alive.  Returns
the total elapsed time and the post-join registry. -/
def joinAll : Nat → List (String × Worker) → Nat × List (String × Worker)
  | t, [] => (t, [])
  | t, (n, w) :: ws =>
    if w.alive = false then
      let r := joinAll t ws
      (r.1, (n, w) :: r.2)
    else if w.remaining ≤ t + 10 then
      let r := joinAll (max t w.remaining) ws
      (r.1, (n, { w with alive := false }) :: r.2)
    else
      let r := joinAll (t + 10) ws
      (r.1, (n, w) :: r.2)

/-- `stop_batch_processing`: clear the running flag, then join each thread
with a 10 s timeout. -/
def stopBatchProcessing (s : BatchState) : BatchState :=
  { s with running := false, workers := (joinAll 0 s.workers).2 }

/-- Time at which `stop_batch_processing` returns. -/
def stopElapsed (s : BatchState) : Nat := (joinAll 0 s.workers).1

/-- `get_batch_status` (the fields the claims read). -/
structure BatchStatus where
  running : Bool
  activeThreads : List (String × Bool)
deriving DecidableEq, Repr

def getBatchStatus (s : BatchState) : BatchStatus :=
  { running := s.running,
    activeThreads := s.workers.map fun p => (p.1, p.2.alive) }

/-! ## On-demand runs and cleanup -/

/-- `process_immediate_batch`: dispatch on the batch type.  Every branch
calls a method that handles its own exceptions and returns normally, so
the surrounding `try` never fires; the result dict starts as
`{success: False, message: "", processed_items: 0}` and only `success` and
`message` are ever reassigned. -/
def processImmediateBatch (batchType : String) (fault : Bool)
    (s : BatchState) : OperationResult × BatchState :=
  if batchType = "engagement" then
    ({ success := true, message := "Engagement metrics processed",
       processedItems := 0 }, processEngagementBatch fault s)
  else if batchType = "trending" then
    ({ success := true, message := "Trending content updated",
       processedItems := 0 }, updateTrendingContent fault s)
  else if batchType = "notifications" then
    ({ success := true, message := "Notification digests processed",
       processedItems := 0 }, processNotificationDigest fault s)
  else if batchType = "cache_maintenance" then
    ({ success := true, message := "Cache maintenance completed",
       processedItems := 0 }, performCacheMaintenance fault s)
  else if batchType = "analytics" then
    ({ success := true, message := "Analytics data aggregated",
       processedItems := 0 }, aggregateAnalyticsData fault s)
  else
    ({ success := false, message := "Unknown batch type: " ++ batchType,
       processedItems := 0 }, s)

/-- `cleanup_old_data`: delete analytics events with
`timestamp < now - days_old` and notifications that are read with
`created_at < now - days_old`. -/
def cleanupOldData (daysOld : Nat) (s : BatchState) : BatchState :=
  let cutoff := s.now - 86400 * (daysOld : Int)
  { s with
    events := s.events.filter fun e => ¬ e.timestamp < cutoff,
    notifications :=
      s.notifications.filter fun n => ¬ (n.createdAt < cutoff ∧ n.read = true) }

/-! ## Concrete fixtures used by counterexamples and witnesses -/

/-- A quiescent state: nothing running, empty collections, healthy cache. -/
def baseState : BatchState :=
  { running := false, workers := [], app := false, cacheAvailable := true,
    hitRate := 100, now := 0, events := [], notifications := [], skills := [],
    users := [], cache := [] }

/-- A window of skill-engagement events with per-entity counts
`{views: 5, likes: 2, downloads: 1, comments: 2}` (the spec's trending
example), all on skill 7 by user 1 at timestamp 0. -/
def evs10 : List Event :=
  [⟨.skillView, some 7, 1, 0⟩, ⟨.skillView, some 7, 1, 0⟩,
   ⟨.skillView, some 7, 1, 0⟩, ⟨.skillView, some 7, 1, 0⟩,
   ⟨.skillView, some 7, 1, 0⟩,
   ⟨.skillLike, some 7, 1, 0⟩, ⟨.skillLike, some 7, 1, 0⟩,
   ⟨.skillDownload, some 7, 1, 0⟩,
   ⟨.skillComment, some 7, 1, 0⟩, ⟨.skillComment, some 7, 1, 0⟩]

/-- A window with counts `{views: 10, likes: 4, downloads: 2, comments: 1,
unique_users: 3}` (the spec's engagement example), all on skill 3. -/
def evs42 : List Event :=
  [⟨.skillView, some 3, 1, 0⟩, ⟨.skillView, some 3, 1, 0⟩,
   ⟨.skillView, some 3, 1, 0⟩, ⟨.skillView, some 3, 1, 0⟩,
   ⟨.skillView, some 3, 2, 0⟩, ⟨.skillView, some 3, 2, 0⟩,
   ⟨.skillView, some 3, 2, 0⟩, ⟨.skillView, some 3, 3, 0⟩,
   ⟨.skillView, some 3, 3, 0⟩, ⟨.skillView, some 3, 3, 0⟩,
   ⟨.skillLike, some 3, 1, 0⟩, ⟨.skillLike, some 3, 2, 0⟩,
   ⟨.skillLike, some 3, 3, 0⟩, ⟨.skillLike, some 3, 1, 0⟩,
   ⟨.skillDownload, some 3, 2, 0⟩, ⟨.skillDownload, some 3, 3, 0⟩,
   ⟨.skillComment, some 3, 1, 0⟩]

/-- A skill document for skill 3 with zeroed counters. -/
def skill3 : Skill :=
  { skillId := 3, viewsCount := 0, likesCount := 0, downloadsCount := 0,
    commentsCount := 0, engagementScore := 0, trendingScore := 0 }

/-- A state in which an on-demand engagement run has one skill to process. -/
def oneSkillState : BatchState :=
  { baseState with app := true, events := evs42, skills := [skill3] }

/-! ## C3 / C5 / C10: on-demand dispatch -/

/-- C3, amended: `process_immediate_batch` returns `processed_items = 0` for
every batch type, every fault outcome and every state — the counter is
initialised to 0 and never reassigned, so it does not reflect the number of
entities processed. -/
theorem processed_items_always_zero (batchType : String) (fault : Bool)
    (s : BatchState) :
    (processImmediateBatch batchType fault s).1.processedItems = 0 := by
  unfold processImmediateBatch
  repeat' split
  all_goals rfl

/-- C3, counterexample: an on-demand engagement run over `oneSkillState`
successfully processes one skill (one aggregation group, whose update is
applied to the `shared_skills` collection), yet the returned
`processed_items` is 0, not 1. -/
theorem processed_items_counterexample :
    (engagementGroups (oneSkillState.now - 3600) oneSkillState.events).length = 1
    ∧ ((processImmediateBatch "engagement" false oneSkillState).2.skills.map
        fun sk => sk.viewsCount) = [10]
    ∧ (processImmediateBatch "engagement" false oneSkillState).1.processedItems
        ≠ (engagementGroups (oneSkillState.now - 3600) oneSkillState.events).length := by
  refine ⟨by decide, ?_, by decide⟩
  decide

/-- C5: an on-demand run with a task name outside the five known batch types
returns `success = false` with a non-empty message, leaves the state
untouched, and (being a total function) raises nothing. -/
theorem run_now_unknown_task_fails (batchType : String) (fault : Bool)
    (s : BatchState)
    (h : batchType ∉ ["engagement", "trending", "notifications",
      "cache_maintenance", "analytics"]) :
    (processImmediateBatch batchType fault s).1.success = false
    ∧ (processImmediateBatch batchType fault s).1.message ≠ ""
    ∧ (processImmediateBatch batchType fault s).2 = s := by
  simp only [List.mem_cons, List.not_mem_nil, or_false] at h
  push_neg at h
  obtain ⟨h1, h2, h3, h4, h5⟩ := h
  unfold processImmediateBatch
  rw [if_neg h1, if_neg h2, if_neg h3, if_neg h4, if_neg h5]
  refine ⟨rfl, ?_, rfl⟩
  intro hc
  have hl := congrArg String.length hc
  have h20 : ("Unknown batch type: ").length = 20 := rfl
  have h0 : ("" : String).length = 0 := rfl
  simp only [String.length_append, h20, h0] at hl
  omega

/-- Witness for C5 at the spec's own example input. -/
theorem run_now_unknown_task_fails_witness :
    (processImmediateBatch "unknown_task" false baseState).1.success = false
    ∧ (processImmediateBatch "unknown_task" false baseState).1.message ≠ ""
    ∧ (processImmediateBatch "unknown_task" false baseState).2 = baseState :=
  run_now_unknown_task_fails "unknown_task" false baseState (by decide)

/-- `_process_engagement_batch` does nothing without an app handle. -/
lemma processEngagementBatch_no_app (fault : Bool) (s : BatchState)
    (h : s.app = false) : processEngagementBatch fault s = s := by
  cases fault <;> simp [processEngagementBatch, engagementBody, h]

/-- `_update_trending_content` does nothing without an app handle. -/
lemma updateTrendingContent_no_app (fault : Bool) (s : BatchState)
    (h : s.app = false) : updateTrendingContent fault s = s := by
  cases fault <;> simp [updateTrendingContent, trendingBody, h]

/-- `_process_notification_digest` does nothing without an app handle. -/
lemma processNotificationDigest_no_app (fault : Bool) (s : BatchState)
    (h : s.app = false) : processNotificationDigest fault s = s := by
  cases fault <;> simp [processNotificationDigest, digestBody, h]

/-- `_aggregate_analytics_data` does nothing without an app handle. -/
lemma aggregateAnalyticsData_no_app (fault : Bool) (s : BatchState)
    (h : s.app = false) : aggregateAnalyticsData fault s = s := by
  cases fault <;> simp [aggregateAnalyticsData, analyticsBody, h]

/-- Every task wrapper recovers to the pre-call state when its body raises. -/
lemma tasks_recover_on_fault (s : BatchState) :
    processEngagementBatch true s = s ∧ updateTrendingContent true s = s
    ∧ processNotificationDigest true s = s
    ∧ performCacheMaintenance true s = s
    ∧ aggregateAnalyticsData true s = s := by
  exact ⟨rfl, rfl, rfl, rfl, rfl⟩

/-- C10: for each of the five known batch types, the on-demand result has
`success = true` no matter the state and no matter whether the underlying
aggregation raised (each task catches its own exceptions); moreover, with no
app handle the engagement, trending, notifications and analytics passes
leave the state untouched, and a raised aggregation also leaves the state
untouched — success is reported even though nothing was processed. -/
theorem immediate_batch_always_succeeds (bt : String) (fault : Bool)
    (s : BatchState)
    (hbt : bt ∈ ["engagement", "trending", "notifications",
      "cache_maintenance", "analytics"]) :
    (processImmediateBatch bt fault s).1.success = true
    ∧ (s.app = false → bt ≠ "cache_maintenance" →
        (processImmediateBatch bt fault s).2 = s)
    ∧ (fault = true → (processImmediateBatch bt fault s).2 = s) := by
  fin_cases hbt
  · exact ⟨rfl, fun h _ => processEngagementBatch_no_app fault s h,
      fun hf => by subst hf; exact (tasks_recover_on_fault s).1⟩
  · exact ⟨rfl, fun h _ => updateTrendingContent_no_app fault s h,
      fun hf => by subst hf; exact (tasks_recover_on_fault s).2.1⟩
  · exact ⟨rfl, fun h _ => processNotificationDigest_no_app fault s h,
      fun hf => by subst hf; exact (tasks_recover_on_fault s).2.2.1⟩
  · exact ⟨rfl, fun _ h => absurd rfl h,
      fun hf => by subst hf; exact (tasks_recover_on_fault s).2.2.2.1⟩
  · exact ⟨rfl, fun h _ => aggregateAnalyticsData_no_app fault s h,
      fun hf => by subst hf; exact (tasks_recover_on_fault s).2.2.2.2⟩

/-- Witness for C10: a faulted engagement run on the quiescent state still
reports success and changes nothing. -/
theorem immediate_batch_always_succeeds_witness :
    (processImmediateBatch "engagement" true baseState).1.success = true
    ∧ (baseState.app = false → "engagement" ≠ "cache_maintenance" →
        (processImmediateBatch "engagement" true baseState).2 = baseState)
    ∧ (true = true →
        (processImmediateBatch "engagement" true baseState).2 = baseState) :=
  immediate_batch_always_succeeds "engagement" true baseState (by decide)

/-! ## C6: start is idempotent by rejection -/

/-- C6: calling `start` on a running scheduler changes nothing (not even the
stored app handle); a second `start` right after a first is therefore a
no-op, and after starting from a stopped state the registry holds exactly
the five task workers, each alive — no duplicate loops. -/
theorem start_idempotent_by_rejection (s : BatchState) (a a' : Bool) :
    (s.running = true → startBatchProcessing a s = s)
    ∧ startBatchProcessing a' (startBatchProcessing a s) =
        startBatchProcessing a s
    ∧ (s.running = false →
        (startBatchProcessing a s).workers.map Prod.fst =
          ["engagement_metrics", "trending_content", "notification_digest",
           "cache_maintenance", "analytics_aggregation"]
        ∧ ((startBatchProcessing a s).workers.map Prod.fst).Nodup
        ∧ ∀ p ∈ (startBatchProcessing a s).workers, p.2.alive = true) := by
  by_cases h : s.running = true
  · refine ⟨fun _ => by simp [startBatchProcessing, h], ?_, fun hf => ?_⟩
    · simp [startBatchProcessing, h]
    · rw [hf] at h; cases h
  · have hrun : s.running = false := by simpa using h
    have hw : (startBatchProcessing a s).workers = spawnWorkers := by
      simp [startBatchProcessing, hrun]
    refine ⟨fun ht => absurd ht h, ?_, fun _ => ?_⟩
    · have hr : (startBatchProcessing a s).running = true := by
        simp [startBatchProcessing, hrun]
      simp [startBatchProcessing, hrun, hr]
    · rw [hw]
      exact ⟨rfl, by decide, by decide⟩

/-- Witness for C6: starting twice from the quiescent state. -/
theorem start_idempotent_by_rejection_witness :
    (baseState.running = true →
      startBatchProcessing true baseState = baseState)
    ∧ startBatchProcessing false (startBatchProcessing true baseState) =
        startBatchProcessing true baseState
    ∧ (baseState.running = false →
        (startBatchProcessing true baseState).workers.map Prod.fst =
          ["engagement_metrics", "trending_content", "notification_digest",
           "cache_maintenance", "analytics_aggregation"]
        ∧ ((startBatchProcessing true baseState).workers.map Prod.fst).Nodup
        ∧ ∀ p ∈ (startBatchProcessing true baseState).workers,
            p.2.alive = true) :=
  start_idempotent_by_rejection baseState true false

/-! ## C4: stop -/

/-- The sequential joins finish within 10 time units per registered task. -/
lemma joinAll_elapsed_le (ws : List (String × Worker)) :
    ∀ t, (joinAll t ws).1 ≤ t + 10 * ws.length := by
  induction ws with
  | nil => intro t; simp [joinAll]
  | cons p ws ih =>
    intro t
    obtain ⟨n, w⟩ := p
    unfold joinAll
    by_cases ha : w.alive = false
    · simp only [ha, if_true]
      calc (joinAll t ws).1 ≤ t + 10 * ws.length := ih t
        _ ≤ t + 10 * ((n, w) :: ws).length := by
            simp only [List.length_cons]; omega
    · simp only [ha, if_false]
      by_cases hr : w.remaining ≤ t + 10
      · simp only [hr, if_true]
        calc (joinAll (max t w.remaining) ws).1
            ≤ max t w.remaining + 10 * ws.length := ih _
          _ ≤ t + 10 * ((n, w) :: ws).length := by
              simp only [List.length_cons]
              have : max t w.remaining ≤ t + 10 := by omega
              omega
      · simp only [hr, if_false]
        calc (joinAll (t + 10) ws).1 ≤ t + 10 + 10 * ws.length := ih _
          _ ≤ t + 10 * ((n, w) :: ws).length := by
              simp only [List.length_cons]; omega

/-- After the joins, every worker whose sleep ends within the 10-unit
timeout has been reaped: its alive flag is false. -/
lemma joinAll_reaps_fast_workers (ws : List (String × Worker)) :
    ∀ t p, p ∈ (joinAll t ws).2 → p.2.remaining ≤ 10 → p.2.alive = false := by
  induction ws with
  | nil => intro t p hp; simp [joinAll] at hp
  | cons q ws ih =>
    intro t p hp hrem
    obtain ⟨n, w⟩ := q
    unfold joinAll at hp
    by_cases ha : w.alive = false
    · simp only [ha, if_true] at hp
      rcases List.mem_cons.mp hp with h | h
      · rw [h]; exact ha
      · exact ih t p h hrem
    · simp only [ha, if_false] at hp
      by_cases hr : w.remaining ≤ t + 10
      · simp only [hr, if_true] at hp
        rcases List.mem_cons.mp hp with h | h
        · rw [h]
        · exact ih _ p h hrem
      · simp only [hr, if_false] at hp
        rcases List.mem_cons.mp hp with h | h
        · exfalso
          rw [h] at hrem
          have hw : w.remaining ≤ 10 := hrem
          omega
        · exact ih _ p h hrem

/-- C4, amended: `stop()` on a running scheduler clears the running flag
(so `status().running = false`), returns within the bounded join timeout of
10 time units per registered task, and every task whose current sleep ends
within the timeout has its alive flag reaped to false; workers still
sleeping past the timeout are abandoned (join times out), so their alive
flags may remain true. -/
theorem stop_bounded_and_running_false (s : BatchState)
    (_hrunning : s.running = true) :
    (stopBatchProcessing s).running = false
    ∧ (getBatchStatus (stopBatchProcessing s)).running = false
    ∧ stopElapsed s ≤ 10 * s.workers.length
    ∧ ∀ p ∈ (stopBatchProcessing s).workers,
        p.2.remaining ≤ 10 → p.2.alive = false := by
  refine ⟨rfl, rfl, ?_, ?_⟩
  · simpa using joinAll_elapsed_le s.workers 0
  · intro p hp hrem
    exact joinAll_reaps_fast_workers s.workers 0 p hp hrem

/-- A running scheduler with one worker 5 s before its wake-up. -/
def stopStateFast : BatchState :=
  { baseState with
    running := true,
    workers := [("engagement_metrics", ⟨true, 5⟩)] }

/-- A running scheduler whose engagement worker is mid-way through its
300 s sleep. -/
def stopStateSlow : BatchState :=
  { baseState with
    running := true,
    workers := [("engagement_metrics", ⟨true, 300⟩)] }

/-- Witness for C4 (amended) on a running scheduler with one worker whose
sleep ends within the timeout. -/
theorem stop_bounded_and_running_false_witness :
    (stopBatchProcessing stopStateFast).running = false
    ∧ (getBatchStatus (stopBatchProcessing stopStateFast)).running = false
    ∧ stopElapsed stopStateFast ≤ 10 * stopStateFast.workers.length
    ∧ ∀ p ∈ (stopBatchProcessing stopStateFast).workers,
        p.2.remaining ≤ 10 → p.2.alive = false :=
  stop_bounded_and_running_false stopStateFast rfl

/-- C4, counterexample: stopping a running scheduler whose engagement worker
is mid-way through its 300 s sleep leaves that worker's alive flag true —
`stop()` does not make every task's alive flag false. -/
theorem stop_leaves_sleeping_worker_alive :
    stopStateSlow.running = true
    ∧ ¬ ∀ p ∈ (stopBatchProcessing stopStateSlow).workers,
          p.2.alive = false := by
  constructor
  · rfl
  · intro hall
    have hmem : ("engagement_metrics", (⟨true, 300⟩ : Worker)) ∈
        (stopBatchProcessing stopStateSlow).workers := by decide
    have := hall _ hmem
    simp at this

/-! ## C8: cleanup of old data -/

/-- C8: `cleanup_old_data(days_old)` keeps an event row iff it was present
and is not strictly older than the cutoff, keeps a notification iff it was
present and is not (read ∧ strictly older than the cutoff); every unread
notification survives whatever its age, and the other collections and the
cache are untouched. -/
theorem cleanup_exact (daysOld : Nat) (_hd : 1 ≤ daysOld) (s : BatchState) :
    (∀ e : Event, e ∈ (cleanupOldData daysOld s).events ↔
      (e ∈ s.events ∧ ¬ e.timestamp < s.now - 86400 * (daysOld : Int)))
    ∧ (∀ n : Notif, n ∈ (cleanupOldData daysOld s).notifications ↔
      (n ∈ s.notifications ∧
        ¬ (n.createdAt < s.now - 86400 * (daysOld : Int) ∧ n.read = true)))
    ∧ (∀ n ∈ s.notifications, n.read = false →
        n ∈ (cleanupOldData daysOld s).notifications)
    ∧ (cleanupOldData daysOld s).skills = s.skills
    ∧ (cleanupOldData daysOld s).users = s.users
    ∧ (cleanupOldData daysOld s).cache = s.cache := by
  refine ⟨?_, ?_, ?_, rfl, rfl, rfl⟩
  · intro e
    simp only [cleanupOldData, List.mem_filter, decide_eq_true_eq]
  · intro n
    simp only [cleanupOldData, List.mem_filter, decide_eq_true_eq]
  · intro n hn hread
    simp only [cleanupOldData, List.mem_filter, decide_eq_true_eq]
    refine ⟨hn, fun hc => ?_⟩
    rw [hread] at hc
    exact Bool.false_ne_true hc.2

/-- A state whose event store and notifications mix rows on both sides of a
30-day cutoff (clock at 100 days): an event 40 days old, an event 2 days
old, a read notification 35 days old, an unread one 50 days old. -/
def cleanupState : BatchState :=
  { baseState with
    now := 8640000,
    events := [⟨.skillView, some 7, 1, 8640000 - 40 * 86400⟩,
               ⟨.skillView, some 7, 2, 8640000 - 2 * 86400⟩],
    notifications :=
      [⟨1, .likeReceived, true, 8640000 - 35 * 86400⟩,
       ⟨2, .likeReceived, false, 8640000 - 50 * 86400⟩] }

/-- Witness for C8 at `days_old = 30` on `cleanupState`. -/
theorem cleanup_exact_witness :
    (∀ e : Event, e ∈ (cleanupOldData 30 cleanupState).events ↔
      (e ∈ cleanupState.events ∧
        ¬ e.timestamp < cleanupState.now - 86400 * (30 : Int)))
    ∧ (∀ n : Notif, n ∈ (cleanupOldData 30 cleanupState).notifications ↔
      (n ∈ cleanupState.notifications ∧
        ¬ (n.createdAt < cleanupState.now - 86400 * (30 : Int) ∧
            n.read = true)))
    ∧ (∀ n ∈ cleanupState.notifications, n.read = false →
        n ∈ (cleanupOldData 30 cleanupState).notifications)
    ∧ (cleanupOldData 30 cleanupState).skills = cleanupState.skills
    ∧ (cleanupOldData 30 cleanupState).users = cleanupState.users
    ∧ (cleanupOldData 30 cleanupState).cache = cleanupState.cache :=
  cleanup_exact 30 (by decide) cleanupState

/-! ## C9: analytics rollup idempotence -/

lemma cacheExists_set_self (k : CacheKey) (v : CacheValue) (t : Nat)
    (c : Cache) : cacheExists k (cacheSet k v t c) = true := by
  simp [cacheExists, cacheSet]

/-- A run with the current day already cached does nothing. -/
lemma aggregateAnalyticsData_done (s : BatchState) (happ : s.app = true)
    (hex : cacheExists (.dailyAnalytics (dayOf s.now)) s.cache = true) :
    aggregateAnalyticsData false s = s := by
  simp [aggregateAnalyticsData, analyticsBody, happ, hex]

/-- The rollup never changes the app handle, the clock or the event store. -/
lemma aggregateAnalyticsData_preserves (s : BatchState) :
    (aggregateAnalyticsData false s).app = s.app
    ∧ (aggregateAnalyticsData false s).now = s.now
    ∧ (aggregateAnalyticsData false s).events = s.events := by
  by_cases happ : s.app = false
  · rw [aggregateAnalyticsData_no_app false s happ]; exact ⟨rfl, rfl, rfl⟩
  · have happ2 : s.app = true := by simpa using happ
    by_cases hex : cacheExists (.dailyAnalytics (dayOf s.now)) s.cache = true
    · rw [aggregateAnalyticsData_done s happ2 hex]; exact ⟨rfl, rfl, rfl⟩
    · have hex' : cacheExists (.dailyAnalytics (dayOf s.now)) s.cache = false := by
        simpa using hex
      refine ⟨?_, ?_, ?_⟩ <;>
        simp [aggregateAnalyticsData, analyticsBody, happ2, hex']

/-- After a run with an app handle, the current day's key is cached. -/
lemma aggregateAnalyticsData_key_done (s : BatchState)
    (happ : s.app = true) :
    cacheExists (.dailyAnalytics (dayOf s.now))
      (aggregateAnalyticsData false s).cache = true := by
  by_cases hex : cacheExists (.dailyAnalytics (dayOf s.now)) s.cache = true
  · rw [aggregateAnalyticsData_done s happ hex]; exact hex
  · have hex' : cacheExists (.dailyAnalytics (dayOf s.now)) s.cache = false := by
      simpa using hex
    simp [aggregateAnalyticsData, analyticsBody, happ, hex',
      cacheExists_set_self]

/-- C9: the analytics rollup is idempotent per day — when the day-keyed
cache entry already exists the run is the identity on the state, running it
twice at the same clock equals running it once, and the rollup never writes
the event store. -/
theorem analytics_rollup_idempotent (s : BatchState) :
    (s.app = true →
      cacheExists (.dailyAnalytics (dayOf s.now)) s.cache = true →
      aggregateAnalyticsData false s = s)
    ∧ aggregateAnalyticsData false (aggregateAnalyticsData false s) =
        aggregateAnalyticsData false s
    ∧ (aggregateAnalyticsData false s).events = s.events := by
  refine ⟨fun h1 h2 => aggregateAnalyticsData_done s h1 h2, ?_,
    (aggregateAnalyticsData_preserves s).2.2⟩
  by_cases happ : s.app = false
  · rw [aggregateAnalyticsData_no_app false s happ,
      aggregateAnalyticsData_no_app false s happ]
  · have happ2 : s.app = true := by simpa using happ
    have h1 : (aggregateAnalyticsData false s).app = true :=
      (aggregateAnalyticsData_preserves s).1.trans happ2
    have hnow := (aggregateAnalyticsData_preserves s).2.1
    refine aggregateAnalyticsData_done _ h1 ?_
    rw [hnow]
    exact aggregateAnalyticsData_key_done s happ2

/-- A state whose daily analytics key is already cached. -/
def analyticsDoneState : BatchState :=
  { baseState with
    app := true,
    cache := [(CacheKey.dailyAnalytics 0, ⟨.aggVal [], 86400⟩)] }

/-- Witness for C9 on a state with today's rollup already cached. -/
theorem analytics_rollup_idempotent_witness :
    (analyticsDoneState.app = true →
      cacheExists (.dailyAnalytics (dayOf analyticsDoneState.now))
        analyticsDoneState.cache = true →
      aggregateAnalyticsData false analyticsDoneState = analyticsDoneState)
    ∧ aggregateAnalyticsData false
        (aggregateAnalyticsData false analyticsDoneState) =
        aggregateAnalyticsData false analyticsDoneState
    ∧ (aggregateAnalyticsData false analyticsDoneState).events =
        analyticsDoneState.events :=
  analytics_rollup_idempotent analyticsDoneState

/-! ## C2: engagement scoring -/

/-- C2: every per-skill window aggregate of the engagement pass carries the
weighted score `views*1 + likes*3 + downloads*5 + comments*4 +
unique_users*2`; the per-type counters are written with a non-destructive
increment (`$inc`) while the score itself is `$set`; and on the spec's
example window (counts `{views: 10, likes: 4, downloads: 2, comments: 1,
unique_users: 3}`) the computed score is 42. -/
theorem engagement_score_and_increment (cutoff : Int) (evs : List Event) :
    ((engagementGroups cutoff evs).map fun g => g.engagementScore) =
      ((engagementGroups cutoff evs).map fun g =>
        g.views * 1 + g.likes * 3 + g.downloads * 5 + g.comments * 4 +
          g.uniqueUsers * 2)
    ∧ (∀ (g : EngGroup) (sk : Skill),
        (applyEngagementUpdate sk g).viewsCount = sk.viewsCount + g.views
        ∧ (applyEngagementUpdate sk g).likesCount = sk.likesCount + g.likes
        ∧ (applyEngagementUpdate sk g).downloadsCount =
            sk.downloadsCount + g.downloads
        ∧ (applyEngagementUpdate sk g).commentsCount =
            sk.commentsCount + g.comments
        ∧ (applyEngagementUpdate sk g).engagementScore = g.engagementScore)
    ∧ ((engagementGroups (-3600) evs42).map fun g =>
        (g.views, g.likes, g.downloads, g.comments, g.uniqueUsers,
          g.engagementScore)) = [(10, 4, 2, 1, 3, 42)] := by
  refine ⟨?_, fun g sk => ⟨rfl, rfl, rfl, rfl, rfl⟩, by decide⟩
  apply List.map_congr_left
  intro g hg
  simp only [engagementGroups] at hg
  obtain ⟨sid, hsid, rfl⟩ := List.mem_map.mp hg
  simp only [engGroupFor]
  omega

/-! ## C1: trending scoring and ordering -/

/-- Every row the trending pipeline returns carries the score the
`$addFields` stage computed: `total_interactions + unique_user_count * 2`. -/
lemma getTrendingContent_mem_score (now : Int) (days limit : Nat)
    (evs : List Event) (g : TrendGroup)
    (hg : g ∈ getTrendingContent now days limit evs) :
    g.trendingScore =
      (g.totalInteractions : ℚ) + (g.uniqueUserCount : ℚ) * 2 := by
  simp only [getTrendingContent] at hg
  have h1 := List.take_subset _ _ hg
  have h2 := (List.perm_insertionSort trendRel _).mem_iff.mp h1
  obtain ⟨k, hk, rfl⟩ := List.mem_map.mp h2
  rfl

/-- C1, amended: for every window, the scores the trending pass returns are
`total_interactions + 2 * unique_user_count` (an unweighted interaction
count plus double weight on distinct users — not the per-type weighted
formula), and the returned top-N list is sorted descending by this score
and then by recency (`latest_activity`), with at most `limit` rows. -/
theorem trending_pass_score_and_order (now : Int) (days limit : Nat)
    (evs : List Event) :
    List.Sorted trendRel (getTrendingContent now days limit evs)
    ∧ ((getTrendingContent now days limit evs).map fun g =>
        g.trendingScore) =
      ((getTrendingContent now days limit evs).map fun g =>
        (g.totalInteractions : ℚ) + (g.uniqueUserCount : ℚ) * 2)
    ∧ (getTrendingContent now days limit evs).length ≤ limit := by
  refine ⟨?_, ?_, ?_⟩
  · simp only [getTrendingContent]
    exact (List.sorted_insertionSort trendRel _).sublist
      (List.take_sublist _ _)
  · exact List.map_congr_left
      (getTrendingContent_mem_score now days limit evs)
  · simp only [getTrendingContent]
    exact List.length_take_le _ _

/-- C1, counterexample: on the spec's own example window — per-entity counts
`{views: 5, likes: 2, downloads: 1, comments: 2}` (one user, one skill) —
the spec formula `views + 2*likes + 3*downloads + 1.5*comments` gives 15,
but the trending pass computes `total_interactions + 2*unique_user_count =
10 + 2 = 12`: no row of the returned list carries the spec's score. -/
theorem trending_score_spec_formula_counterexample :
    ((evs10.filter fun e => e.eventType = .skillView).length = 5
      ∧ (evs10.filter fun e => e.eventType = .skillLike).length = 2
      ∧ (evs10.filter fun e => e.eventType = .skillDownload).length = 1
      ∧ (evs10.filter fun e => e.eventType = .skillComment).length = 2)
    ∧ ((getTrendingContent 0 1 50 evs10).map fun g =>
        (g.totalInteractions, g.uniqueUserCount)) = [(10, 1)]
    ∧ specTrendingScore 5 2 1 2 = 15
    ∧ ∀ g ∈ getTrendingContent 0 1 50 evs10,
        g.trendingScore ≠ specTrendingScore 5 2 1 2 := by
  have hnum : ((getTrendingContent 0 1 50 evs10).map fun g =>
      (g.totalInteractions, g.uniqueUserCount)) = [(10, 1)] := by decide
  refine ⟨by decide, hnum, by norm_num [specTrendingScore], ?_⟩
  intro g hg
  have hs := getTrendingContent_mem_score 0 1 50 evs10 g hg
  have hmem := List.mem_map_of_mem
    (fun g : TrendGroup => (g.totalInteractions, g.uniqueUserCount)) hg
  rw [hnum] at hmem
  simp only [List.mem_singleton, Prod.mk.injEq] at hmem
  rw [hs, hmem.1, hmem.2]
  norm_num [specTrendingScore]

/-! ## C7: notification digest -/

/-- Digest notifications present for a user. -/
def digestsFor (notifs : List Notif) (u : Nat) : Nat :=
  (notifs.filter fun n => n.ntype = .dailyDigest ∧ n.userId = u).length

lemma digestsFor_append (l1 l2 : List Notif) (u : Nat) :
    digestsFor (l1 ++ l2) u = digestsFor l1 u + digestsFor l2 u := by
  simp [digestsFor, List.filter_append]

lemma digestsFor_mkDigest_same (u : Nat) (now : Int) :
    digestsFor [mkDigest u now] u = 1 := by
  simp [digestsFor, mkDigest]

lemma digestsFor_mkDigest_other (c u : Nat) (now : Int) (h : ¬ c = u) :
    digestsFor [mkDigest c now] u = 0 := by
  simp [digestsFor, mkDigest, h]

lemma cacheGet_set_self (k : CacheKey) (v : CacheValue) (t : Nat)
    (c : Cache) : cacheGet k (cacheSet k v t c) = some ⟨v, t⟩ := by
  unfold cacheGet cacheSet
  rw [List.find?_cons_of_pos _ (by simp)]
  rfl

/-- `find?` ignores a filter that can only discard non-matching elements. -/
lemma find?_filter_of_imp {α : Type} (p q : α → Bool) (l : List α)
    (h : ∀ a, p a = true → q a = true) :
    (l.filter q).find? p = l.find? p := by
  induction l with
  | nil => rfl
  | cons a l ih =>
    by_cases hq : q a = true
    · rw [List.filter_cons_of_pos hq]
      by_cases hp : p a = true
      · rw [List.find?_cons_of_pos _ hp, List.find?_cons_of_pos _ hp]
      · rw [List.find?_cons_of_neg _ hp, List.find?_cons_of_neg _ hp]
        exact ih
    · have hp : ¬ p a = true := fun hpa => hq (h a hpa)
      rw [List.filter_cons_of_neg hq, List.find?_cons_of_neg _ hp]
      exact ih

lemma cacheGet_set_other (k k' : CacheKey) (v : CacheValue) (t : Nat)
    (c : Cache) (h : ¬ k = k') :
    cacheGet k (cacheSet k' v t c) = cacheGet k c := by
  have h' : ¬ k' = k := fun hc => h hc.symm
  unfold cacheGet cacheSet
  rw [List.find?_cons_of_neg _ (by simpa using h')]
  rw [find?_filter_of_imp _ _ c ?_]
  intro a ha
  simp only [decide_eq_true_eq] at ha ⊢
  rw [ha]
  exact h

lemma cacheExists_eq_isSome (k : CacheKey) (c : Cache) :
    cacheExists k c = (cacheGet k c).isSome := by
  induction c with
  | nil => rfl
  | cons q l ih =>
    unfold cacheExists cacheGet at *
    by_cases h : q.1 = k
    · rw [List.find?_cons_of_pos _ (by simpa using h)]
      simp [List.any_cons, h]
    · rw [List.find?_cons_of_neg _ (by simpa using h)]
      rw [List.any_cons]
      simpa [h] using ih

lemma cacheExists_false_iff (k : CacheKey) (c : Cache) :
    cacheExists k c = false ↔ cacheGet k c = none := by
  rw [cacheExists_eq_isSome]
  cases cacheGet k c <;> simp

/-- The digest loop body leaves the app handle untouched. -/
lemma digestStep_app (now : Int) (st : BatchState) (c : Nat) :
    (digestStep now st c).app = st.app := by
  unfold digestStep; split <;> rfl

/-- The digest loop body leaves the clock untouched. -/
lemma digestStep_now (now : Int) (st : BatchState) (c : Nat) :
    (digestStep now st c).now = st.now := by
  unfold digestStep; split <;> rfl

lemma digestStep_eq_of_exists (now : Int) (st : BatchState) (c : Nat)
    (h : cacheExists (.digestSent c) st.cache = true) :
    digestStep now st c = st := by
  simp [digestStep, h]

/-- The digest loop only ever appends `daily_digest` notifications. -/
lemma digestStep_notifs (now : Int) (st : BatchState) (c : Nat) :
    ∃ d : List Notif,
      (digestStep now st c).notifications = st.notifications ++ d
      ∧ ∀ n ∈ d, n.ntype = .dailyDigest := by
  unfold digestStep
  split
  · exact ⟨[], by simp, by simp⟩
  · exact ⟨[mkDigest c now], rfl, by simp [mkDigest]⟩

/-- Folding the digest loop: the app handle and clock are preserved and the
notifications grow only by `daily_digest` rows. -/
lemma digestFold_frame (now : Int) (cs : List Nat) :
    ∀ st : BatchState,
      (cs.foldl (digestStep now) st).app = st.app
      ∧ (cs.foldl (digestStep now) st).now = st.now
      ∧ ∃ ds, (cs.foldl (digestStep now) st).notifications =
            st.notifications ++ ds
          ∧ ∀ n ∈ ds, n.ntype = .dailyDigest := by
  induction cs with
  | nil => intro st; exact ⟨rfl, rfl, [], by simp, by simp⟩
  | cons c cs ih =>
    intro st
    rw [List.foldl_cons]
    obtain ⟨hap, hnw, ds, hds, hall⟩ := ih (digestStep now st c)
    obtain ⟨d, hd, hdall⟩ := digestStep_notifs now st c
    refine ⟨hap.trans (digestStep_app now st c),
      hnw.trans (digestStep_now now st c), d ++ ds, ?_, ?_⟩
    · rw [hds, hd, List.append_assoc]
    · intro n hn
      rcases List.mem_append.mp hn with h | h
      · exact hdall n h
      · exact hall n h

/-- When every candidate already has its dedup key, the digest loop is the
identity. -/
lemma digestFold_id (now : Int) (cs : List Nat) :
    ∀ st : BatchState,
      (∀ c ∈ cs, cacheExists (.digestSent c) st.cache = true) →
      cs.foldl (digestStep now) st = st := by
  induction cs with
  | nil => intro st _; rfl
  | cons c cs ih =>
    intro st h
    rw [List.foldl_cons,
      digestStep_eq_of_exists now st c (h c (List.mem_cons_self c cs))]
    exact ih st fun c' hc' => h c' (List.mem_cons_of_mem _ hc')

/-- Appending `daily_digest` rows does not change the qualifying set (the
digest type is not among the three qualifying types). -/
lemma qualifyingNotifs_append_digests (now : Int) (l ds : List Notif)
    (h : ∀ n ∈ ds, n.ntype = .dailyDigest) :
    qualifyingNotifs now (l ++ ds) = qualifyingNotifs now l := by
  unfold qualifyingNotifs
  rw [List.filter_append]
  have hnil : (ds.filter fun n =>
      n.read = false ∧ now - 86400 ≤ n.createdAt ∧
        n.ntype ∈ digestNotifTypes) = [] := by
    rw [List.filter_eq_nil_iff]
    intro n hn
    have := h n hn
    simp [this, digestNotifTypes]
  rw [hnil, List.append_nil]

lemma unreadCountFor_append_digests (now : Int) (l ds : List Notif)
    (h : ∀ n ∈ ds, n.ntype = .dailyDigest) :
    unreadCountFor now (l ++ ds) = unreadCountFor now l := by
  funext u
  unfold unreadCountFor
  rw [qualifyingNotifs_append_digests now l ds h]

lemma digestCandidates_append_digests (now : Int) (l ds : List Notif)
    (h : ∀ n ∈ ds, n.ntype = .dailyDigest) :
    digestCandidates now (l ++ ds) = digestCandidates now l := by
  unfold digestCandidates
  rw [qualifyingNotifs_append_digests now l ds h,
    unreadCountFor_append_digests now l ds h]

lemma digestCandidates_nodup (now : Int) (notifs : List Notif) :
    (digestCandidates now notifs).Nodup :=
  (List.nodup_dedup _).filter _

/-- A user is a digest candidate iff their unread qualifying notifications
in the window number at least 5. -/
lemma mem_digestCandidates (now : Int) (notifs : List Notif) (u : Nat) :
    u ∈ digestCandidates now notifs ↔ 5 ≤ unreadCountFor now notifs u := by
  unfold digestCandidates
  rw [List.mem_filter]
  constructor
  · rintro ⟨-, h⟩
    simpa using h
  · intro h
    refine ⟨?_, by simpa using h⟩
    rw [List.mem_dedup]
    have hlen : 0 <
        ((qualifyingNotifs now notifs).filter fun n => n.userId = u).length := by
      unfold unreadCountFor at h
      omega
    obtain ⟨n, hn⟩ := List.exists_mem_of_length_pos hlen
    have hmf := List.mem_filter.mp hn
    exact List.mem_map.mpr ⟨n, hmf.1, by simpa using hmf.2⟩

/-- The digest loop body for another candidate changes neither the digest
count of `u` nor `u`'s dedup key. -/
lemma digestStep_other (now : Int) (st : BatchState) (c u : Nat)
    (hc : ¬ c = u) :
    digestsFor (digestStep now st c).notifications u =
      digestsFor st.notifications u
    ∧ cacheGet (.digestSent u) (digestStep now st c).cache =
      cacheGet (.digestSent u) st.cache := by
  by_cases hex : cacheExists (.digestSent c) st.cache = true
  · rw [digestStep_eq_of_exists now st c hex]
    exact ⟨rfl, rfl⟩
  · have hex' : cacheExists (.digestSent c) st.cache = false := by
      simpa using hex
    have hstep : digestStep now st c =
        { st with
          notifications := st.notifications ++ [mkDigest c now],
          cache := cacheSet (.digestSent c) (.boolVal true) 86400 st.cache } := by
      simp [digestStep, hex']
    rw [hstep]
    constructor
    · rw [digestsFor_append, digestsFor_mkDigest_other c u now hc,
        Nat.add_zero]
    · refine cacheGet_set_other _ _ _ _ _ ?_
      simp only [CacheKey.digestSent.injEq]
      exact fun hh => hc hh.symm

/-- Effect of the digest loop on one user `u`: a digest is added iff `u` is
among the processed candidates and `u`'s dedup key was absent at loop
start, in which case the key is afterwards cached with a 86400 s TTL. -/
lemma digestFold_count (now : Int) (u : Nat) :
    ∀ cs : List Nat, cs.Nodup → ∀ st : BatchState,
      digestsFor (cs.foldl (digestStep now) st).notifications u =
        digestsFor st.notifications u +
          (if u ∈ cs ∧ cacheGet (.digestSent u) st.cache = none
           then 1 else 0)
      ∧ cacheGet (.digestSent u) (cs.foldl (digestStep now) st).cache =
          (if u ∈ cs ∧ cacheGet (.digestSent u) st.cache = none
           then some ⟨.boolVal true, 86400⟩
           else cacheGet (.digestSent u) st.cache) := by
  intro cs
  induction cs with
  | nil =>
    intro _ st
    simp
  | cons c cs ih =>
    intro hnd st
    obtain ⟨hcnot, hndcs⟩ := List.nodup_cons.mp hnd
    rw [List.foldl_cons]
    by_cases hc : c = u
    · subst hc
      have hcondcs : ∀ st' : BatchState,
          ¬ (c ∈ cs ∧ cacheGet (.digestSent c) st'.cache = none) :=
        fun st' hx => hcnot hx.1
      by_cases hk : cacheGet (.digestSent c) st.cache = none
      · have hex : cacheExists (.digestSent c) st.cache = false :=
          (cacheExists_false_iff _ _).mpr hk
        have hstep : digestStep now st c =
            { st with
              notifications := st.notifications ++ [mkDigest c now],
              cache :=
                cacheSet (.digestSent c) (.boolVal true) 86400 st.cache } := by
          simp [digestStep, hex]
        obtain ⟨ih1, ih2⟩ := ih hndcs (digestStep now st c)
        rw [if_neg (hcondcs _)] at ih1 ih2
        have hpos : c ∈ c :: cs ∧ cacheGet (.digestSent c) st.cache = none :=
          ⟨List.mem_cons_self c cs, hk⟩
        constructor
        · rw [if_pos hpos, ih1, hstep, Nat.add_zero]
          show digestsFor (st.notifications ++ [mkDigest c now]) c = _
          rw [digestsFor_append, digestsFor_mkDigest_same]
        · rw [if_pos hpos, ih2, hstep]
          show cacheGet (.digestSent c)
            (cacheSet (.digestSent c) (.boolVal true) 86400 st.cache) = _
          rw [cacheGet_set_self]
      · have hex : cacheExists (.digestSent c) st.cache = true := by
          rw [cacheExists_eq_isSome]
          exact Option.isSome_iff_ne_none.mpr hk
        rw [digestStep_eq_of_exists now st c hex]
        obtain ⟨ih1, ih2⟩ := ih hndcs st
        rw [if_neg (hcondcs _)] at ih1 ih2
        have hneg : ¬ (c ∈ c :: cs ∧ cacheGet (.digestSent c) st.cache = none) :=
          fun hx => hk hx.2
        constructor
        · rw [if_neg hneg]
          exact ih1
        · rw [if_neg hneg]
          exact ih2
    · obtain ⟨hsame, hget⟩ := digestStep_other now st c u hc
      obtain ⟨ih1, ih2⟩ := ih hndcs (digestStep now st c)
      have hmem : (u ∈ c :: cs ∧ cacheGet (.digestSent u) st.cache = none) ↔
          (u ∈ cs ∧ cacheGet (.digestSent u)
            (digestStep now st c).cache = none) := by
        rw [hget]
        constructor
        · rintro ⟨hm, hn⟩
          rcases List.mem_cons.mp hm with h | h
          · exact absurd h.symm hc
          · exact ⟨h, hn⟩
        · rintro ⟨hm, hn⟩
          exact ⟨List.mem_cons_of_mem _ hm, hn⟩
      by_cases hcond : u ∈ c :: cs ∧ cacheGet (.digestSent u) st.cache = none
      · rw [if_pos (hmem.mp hcond)] at ih1 ih2
        constructor
        · rw [if_pos hcond, ih1, hsame]
        · rw [if_pos hcond, ih2]
      · rw [if_neg fun hx => hcond (hmem.mpr hx)] at ih1 ih2
        constructor
        · rw [if_neg hcond, ih1, hsame]
        · rw [if_neg hcond, ih2, hget]

/-- With an app handle, the digest task runs the candidate loop. -/
lemma processNotificationDigest_run (s : BatchState) (happ : s.app = true) :
    processNotificationDigest false s = digestWork s := by
  simp [processNotificationDigest, digestBody, happ]

/-- C7: in every run of the digest pass, a digest notification is created
for a user iff their unread qualifying notifications in the trailing 24 h
window number at least 5 and no `digest_sent:<user>` dedup key exists; when
created, the dedup key is cached with a 86400 s TTL; and an immediate
second run is the identity — zero additional digests for every user. -/
theorem digest_once_per_day (s : BatchState) (u : Nat)
    (happ : s.app = true) :
    digestsFor (processNotificationDigest false s).notifications u =
      digestsFor s.notifications u +
        (if 5 ≤ unreadCountFor s.now s.notifications u ∧
            cacheExists (.digestSent u) s.cache = false then 1 else 0)
    ∧ (5 ≤ unreadCountFor s.now s.notifications u →
        cacheExists (.digestSent u) s.cache = false →
        cacheGet (.digestSent u) (processNotificationDigest false s).cache =
          some ⟨.boolVal true, 86400⟩)
    ∧ processNotificationDigest false (processNotificationDigest false s) =
        processNotificationDigest false s := by
  have hrun := processNotificationDigest_run s happ
  obtain ⟨hcount, hget⟩ := digestFold_count s.now u
    (digestCandidates s.now s.notifications)
    (digestCandidates_nodup s.now s.notifications) s
  have hcondiff : (u ∈ digestCandidates s.now s.notifications ∧
      cacheGet (.digestSent u) s.cache = none) ↔
      (5 ≤ unreadCountFor s.now s.notifications u ∧
        cacheExists (.digestSent u) s.cache = false) := by
    rw [mem_digestCandidates, cacheExists_false_iff]
  refine ⟨?_, ?_, ?_⟩
  · rw [hrun]
    unfold digestWork
    rw [hcount]
    by_cases hcond : 5 ≤ unreadCountFor s.now s.notifications u ∧
        cacheExists (.digestSent u) s.cache = false
    · rw [if_pos (hcondiff.mpr hcond), if_pos hcond]
    · rw [if_neg fun hx => hcond (hcondiff.mp hx), if_neg hcond]
  · intro h5 hex
    rw [hrun]
    unfold digestWork
    rw [hget, if_pos (hcondiff.mpr ⟨h5, hex⟩)]
  · rw [hrun]
    obtain ⟨hfapp, hfnow, ds, hfn, hall⟩ :=
      digestFold_frame s.now (digestCandidates s.now s.notifications) s
    have happ1 : (digestWork s).app = true := by
      unfold digestWork
      rw [hfapp]
      exact happ
    rw [processNotificationDigest_run _ happ1]
    have hwnow : (digestWork s).now = s.now := hfnow
    have hwn : (digestWork s).notifications = s.notifications ++ ds := hfn
    have hcands : digestCandidates (digestWork s).now
        (digestWork s).notifications =
        digestCandidates s.now s.notifications := by
      rw [hwnow, hwn, digestCandidates_append_digests s.now _ ds hall]
    show (digestCandidates (digestWork s).now
        (digestWork s).notifications).foldl
        (digestStep (digestWork s).now) (digestWork s) = digestWork s
    rw [hcands, hwnow]
    refine digestFold_id s.now _ (digestWork s) fun c hc => ?_
    obtain ⟨-, hgetc⟩ := digestFold_count s.now c
      (digestCandidates s.now s.notifications)
      (digestCandidates_nodup s.now s.notifications) s
    rw [cacheExists_eq_isSome]
    by_cases hnone : cacheGet (.digestSent c) s.cache = none
    · rw [if_pos ⟨hc, hnone⟩] at hgetc
      unfold digestWork
      rw [hgetc]
      rfl
    · rw [if_neg fun hx => hnone hx.2] at hgetc
      unfold digestWork
      rw [hgetc]
      exact Option.isSome_iff_ne_none.mpr hnone

/-- A state with five unread qualifying notifications for user 4 in the
trailing window, an app handle, and an empty cache. -/
def digestState : BatchState :=
  { baseState with
    app := true,
    now := 864000,
    notifications :=
      [⟨4, .likeReceived, false, 864000 - 100⟩,
       ⟨4, .likeReceived, false, 864000 - 200⟩,
       ⟨4, .commentReceived, false, 864000 - 300⟩,
       ⟨4, .followerAdded, false, 864000 - 400⟩,
       ⟨4, .likeReceived, false, 864000 - 500⟩] }

/-- Witness for C7 on `digestState` and user 4. -/
theorem digest_once_per_day_witness :
    digestsFor (processNotificationDigest false digestState).notifications 4 =
      digestsFor digestState.notifications 4 +
        (if 5 ≤ unreadCountFor digestState.now digestState.notifications 4 ∧
            cacheExists (.digestSent 4) digestState.cache = false
         then 1 else 0)
    ∧ (5 ≤ unreadCountFor digestState.now digestState.notifications 4 →
        cacheExists (.digestSent 4) digestState.cache = false →
        cacheGet (.digestSent 4)
            (processNotificationDigest false digestState).cache =
          some ⟨.boolVal true, 86400⟩)
    ∧ processNotificationDigest false
        (processNotificationDigest false digestState) =
        processNotificationDigest false digestState :=
  digest_once_per_day digestState 4 rfl

end TikTokHacka
